import Mathlib

/-!
Verification of the simulation core of a Conway's Game of Life implementation
(`src/App.tsx`). The grid is a row-major matrix of cells (`Uint8Array[]` in the
source, cells 0/1, modelled here as `List (List Bool)`). The operations embedded
below follow the source functions: `createEmptyGrid`, `cloneGrid`,
`countNeighbors`, `step`, the paint handlers, `randomize`, the two resize
handlers, and `applyPattern`.
-/

/-- A grid is a row-major list of rows of cells; `true` = alive (1 in the source). -/
abbrev Grid := List (List Bool)

/-- `createEmptyGrid(rows, cols)`: `rows` rows, each a zeroed array of `cols` cells. -/
def createEmptyGrid (rows cols : Nat) : Grid :=
  (List.range rows).map (fun _ => List.replicate cols false)

/-- `cloneGrid(grid)`: `grid.map(row => new Uint8Array(row))`; in a pure model a
row-by-row copy is the rows themselves. -/
def cloneGrid (grid : Grid) : Grid :=
  grid.map (fun row => row)

/-- `g.length` in the source. -/
def gridRows (g : Grid) : Nat := g.length

/-- `g[0].length` in the source (0 when the grid has no rows). -/
def gridCols (g : Grid) : Nat := (g.headD []).length

/-- Reading `g[r][c]`, defaulting to dead outside the grid. -/
def getCell (g : Grid) (r c : Nat) : Bool := (g.getD r []).getD c false

/-- Writing `g[r][c] = v` on a `Uint8Array[]` row: out-of-range writes change
nothing (in-range row with out-of-range column is silently ignored by typed
arrays; `List.set` is likewise the identity out of range). -/
def setCell (g : Grid) (r c : Nat) (v : Bool) : Grid :=
  g.set r ((g.getD r []).set c v)

/-- The invariant the app maintains on its grid state: at least one row (the code
reads `g[0].length`), positive width, and every row of the same length. -/
def WellFormed (g : Grid) : Prop :=
  0 < g.length ∧ 0 < gridCols g ∧ ∀ row ∈ g, row.length = gridCols g

instance (g : Grid) : Decidable (WellFormed g) := by
  unfold WellFormed; infer_instance

/-- The eight Moore-neighborhood offsets, in the order the source's double loop
over `dr, dc ∈ {-1,0,1}` visits them, with `(0,0)` skipped. -/
def neighborDeltas : List (Int × Int) :=
  [(-1,-1), (-1,0), (-1,1), (0,-1), (0,1), (1,-1), (1,0), (1,1)]

/-- The numeric value `g[r][c]` contributes to a neighbor sum. -/
def cellNat (g : Grid) (r c : Nat) : Nat := if getCell g r c then 1 else 0

/-- `countNeighbors(g, r, c)`: sums the eight Moore neighbors. Under
`wrapEdges` the coordinates are reduced as `(r + dr + R) % R` (the source's
non-negative modulo); otherwise out-of-range neighbors are skipped. -/
def countNeighbors (wrapEdges : Bool) (g : Grid) (r c : Nat) : Nat :=
  let R : Int := (g.length : Int)
  let C : Int := (gridCols g : Int)
  neighborDeltas.foldl
    (fun sum d =>
      let nr : Int := (r : Int) + d.1
      let nc : Int := (c : Int) + d.2
      if wrapEdges then
        sum + cellNat g ((nr + R) % R).toNat ((nc + C) % C).toNat
      else if nr < 0 ∨ nr ≥ R ∨ nc < 0 ∨ nc ≥ C then sum
      else sum + cellNat g nr.toNat nc.toNat)
    0

/-- The next state of cell `(r, c)` computed by the body of `step`'s loop:
`g[r][c] ? (survive.includes(n) ? 1 : 0) : (birth.includes(n) ? 1 : 0)`. -/
def nextCell (wrapEdges : Bool) (survive birth : List Nat) (g : Grid) (r c : Nat) : Bool :=
  let n := countNeighbors wrapEdges g r c
  if getCell g r c then survive.contains n else birth.contains n

/-- Row-major order of the cell positions `step` writes: `r` from 0 to
`rows - 1`, inner loop `c` from 0 to `cols - 1`. -/
def rowMajorIndices (rows cols : Nat) : List (Nat × Nat) :=
  (List.range rows).flatMap (fun r => (List.range cols).map (fun c => (r, c)))

/-- `step(g)`: allocates `createEmptyGrid(g.length, g[0].length)` and assigns
each cell of the new grid in row-major order, reading only from `g`. -/
def step (wrapEdges : Bool) (survive birth : List Nat) (g : Grid) : Grid :=
  (rowMajorIndices g.length (gridCols g)).foldl
    (fun acc rc => setCell acc rc.1 rc.2 (nextCell wrapEdges survive birth g rc.1 rc.2))
    (createEmptyGrid g.length (gridCols g))

/-- The synchronous-update shape stated by the spec: a brand-new grid of the
same dimensions in which every cell is a function of the input snapshot only. -/
def stepSync (wrapEdges : Bool) (survive birth : List Nat) (g : Grid) : Grid :=
  (List.range g.length).map (fun r =>
    (List.range (gridCols g)).map (fun c => nextCell wrapEdges survive birth g r c))

/-- `Uint8Array.set(src)` into an array `dst` (here: `src` overwrites the front
of `dst`). In every call site of the app, `src.length ≤ dst.length`. -/
def overwriteFront (dst src : List Bool) : List Bool :=
  src ++ dst.drop src.length

/-- `handleRowsChange`: a fresh `newRows × cols` empty grid; rows
`r < min(g.length, newRows)` receive `newGrid[r].set(g[r])`. -/
def resizeRows (cols : Nat) (g : Grid) (newRows : Nat) : Grid :=
  (List.range newRows).map (fun r =>
    if r < g.length then overwriteFront (List.replicate cols false) (g.getD r [])
    else List.replicate cols false)

/-- `handleColsChange`: every row is replaced by a fresh `newCols` array whose
prefix is `row.slice(0, min(row.length, newCols))` copied in. -/
def resizeCols (g : Grid) (newCols : Nat) : Grid :=
  g.map (fun row =>
    overwriteFront (List.replicate newCols false) (row.take (min row.length newCols)))

/-- Resizing to `newRows × newCols`: the rows slider then the cols slider
(the row change uses the current column count). -/
def resize (g : Grid) (newRows newCols : Nat) : Grid :=
  resizeCols (resizeRows (gridCols g) g newRows) newCols

/-- `randomize`: a fresh `rows × cols` grid with every cell
`rand(r,c) < fillProb ? 1 : 0`, where `rand` supplies the value `Math.random()`
returns for that cell. -/
def randomize (rows cols : Nat) (fillProb : ℚ) (rand : Nat → Nat → ℚ) : Grid :=
  (List.range rows).map (fun r =>
    (List.range cols).map (fun c => decide (rand r c < fillProb)))

/-- The paint handlers (`handleMouseDown` / `handleMouseMove`): clone the grid,
then write the cell only when `0 ≤ y < rows` and `0 ≤ x < cols` (the floor of a
mouse position may be negative, so the coordinates are integers). -/
def paintCell (rows cols : Nat) (g : Grid) (y x : Int) (v : Bool) : Grid :=
  let ng := cloneGrid g
  if 0 ≤ y ∧ y < (rows : Int) ∧ 0 ≤ x ∧ x < (cols : Int) then
    setCell ng y.toNat x.toNat v
  else ng

/-- One pattern-offset write `ng[r][c] = 1` with JavaScript semantics on a
`Uint8Array[]`: if the row index is out of range, `ng[r]` is `undefined` and the
element assignment throws (`none`); an in-range row with an out-of-range column
is a silently ignored typed-array write. -/
def jsSetAlive (g : Grid) (r c : Nat) : Option Grid :=
  if r < g.length then some (setCell g r c true) else none

/-- Stamping an offset list at an anchor on a fresh empty grid, one JavaScript
write per offset, aborting at the first thrown write. -/
def stampPattern (rows cols : Nat) (offsets : List (Nat × Nat)) (ar ac : Nat) :
    Option Grid :=
  offsets.foldlM (fun acc o => jsSetAlive acc (ar + o.1) (ac + o.2))
    (createEmptyGrid rows cols)

/-- `applyPattern(pat)`: centers at `(⌊rows/2⌋, ⌊cols/2⌋)` and stamps the named
built-in offset list on a fresh empty grid; an unknown name leaves the fresh
empty grid. -/
def applyPattern (rows cols : Nat) (pat : String) : Option Grid :=
  let centerR := rows / 2
  let centerC := cols / 2
  if pat = "Glider" then
    stampPattern rows cols [(1,0), (2,1), (0,2), (1,2), (2,2)] centerR centerC
  else if pat = "Blinker" then
    stampPattern rows cols [(0,0), (0,1), (0,2)] centerR centerC
  else if pat = "Block" then
    stampPattern rows cols [(0,0), (0,1), (1,0), (1,1)] centerR centerC
  else some (createEmptyGrid rows cols)

/-! ## Basic list-access lemmas -/

theorem getD_eq_of_lt {α : Type} (l : List α) (d : α) {n : Nat} (h : n < l.length) :
    l.getD n d = l[n] := by
  rw [List.getD_eq_getElem?_getD, List.getElem?_eq_getElem h]; rfl

theorem getD_eq_of_le {α : Type} (l : List α) (d : α) {n : Nat} (h : l.length ≤ n) :
    l.getD n d = d := by
  rw [List.getD_eq_getElem?_getD, List.getElem?_eq_none h]; rfl

theorem getD_set_self {α : Type} (l : List α) {n : Nat} (a d : α) (h : n < l.length) :
    (l.set n a).getD n d = a := by
  rw [List.getD_eq_getElem?_getD, List.getElem?_set_self h]; rfl

theorem getD_set_ne {α : Type} (l : List α) {m n : Nat} (a d : α) (h : m ≠ n) :
    (l.set m a).getD n d = l.getD n d := by
  rw [List.getD_eq_getElem?_getD, List.getElem?_set_ne h, List.getD_eq_getElem?_getD]

theorem contains_iff_mem (l : List Nat) (n : Nat) : l.contains n = true ↔ n ∈ l := by
  simp [List.contains]

theorem headD_eq_getD_zero {α : Type} (l : List α) (d : α) : l.headD d = l.getD 0 d := by
  cases l <;> rfl

/-! ## createEmptyGrid -/

theorem length_createEmptyGrid (rows cols : Nat) :
    (createEmptyGrid rows cols).length = rows := by
  simp [createEmptyGrid]

theorem getD_createEmptyGrid (rows cols : Nat) {r : Nat} (h : r < rows) :
    (createEmptyGrid rows cols).getD r [] = List.replicate cols false := by
  rw [getD_eq_of_lt]
  · simp [createEmptyGrid]
  · simpa [createEmptyGrid] using h

theorem rowLen_createEmptyGrid (rows cols : Nat) (r : Nat) :
    ((createEmptyGrid rows cols).getD r []).length = if r < rows then cols else 0 := by
  by_cases h : r < rows
  · rw [getD_createEmptyGrid rows cols h]; simp [h]
  · rw [getD_eq_of_le]
    · simp [h]
    · simp [length_createEmptyGrid]; omega

theorem getCell_createEmptyGrid (rows cols r c : Nat) :
    getCell (createEmptyGrid rows cols) r c = false := by
  unfold getCell
  by_cases h : r < rows
  · rw [getD_createEmptyGrid rows cols h]
    by_cases hc : c < cols
    · rw [getD_eq_of_lt _ _ (by simpa using hc)]; simp
    · rw [getD_eq_of_le]; simp; omega
  · have hle : (createEmptyGrid rows cols).length ≤ r := by
      rw [length_createEmptyGrid]; omega
    rw [getD_eq_of_le (createEmptyGrid rows cols) [] hle]; rfl

/-! ## setCell -/

theorem length_setCell (g : Grid) (r c : Nat) (v : Bool) :
    (setCell g r c v).length = g.length := by
  simp [setCell]

theorem rowLen_setCell (g : Grid) (r c : Nat) (v : Bool) (i : Nat) :
    ((setCell g r c v).getD i []).length = (g.getD i []).length := by
  unfold setCell
  by_cases hir : i = r
  · subst hir
    by_cases h : i < g.length
    · rw [getD_set_self _ _ _ h]; simp
    · rw [List.set_eq_of_length_le (by omega)]
  · rw [getD_set_ne _ _ _ (Ne.symm hir)]

theorem getCell_setCell_self (g : Grid) {r c : Nat} (v : Bool)
    (hr : r < g.length) (hc : c < (g.getD r []).length) :
    getCell (setCell g r c v) r c = v := by
  unfold getCell setCell
  rw [getD_set_self _ _ _ hr, getD_set_self _ _ _ hc]

theorem getCell_setCell_ne (g : Grid) {r c i j : Nat} (v : Bool)
    (h : ¬(i = r ∧ j = c)) :
    getCell (setCell g r c v) i j = getCell g i j := by
  unfold getCell setCell
  by_cases hir : i = r
  · subst hir
    have hjc : j ≠ c := fun hj => h ⟨rfl, hj⟩
    by_cases hlen : i < g.length
    · rw [getD_set_self _ _ _ hlen, getD_set_ne _ _ _ (Ne.symm hjc)]
    · rw [List.set_eq_of_length_le (by omega)]
  · rw [getD_set_ne _ _ _ (Ne.symm hir)]

/-! ## Folding cell writes over a position list -/

theorem foldl_setCell_length (val : Nat → Nat → Bool) (ps : List (Nat × Nat)) (acc : Grid) :
    (ps.foldl (fun a p => setCell a p.1 p.2 (val p.1 p.2)) acc).length = acc.length := by
  induction ps generalizing acc with
  | nil => rfl
  | cons p rest ih => rw [List.foldl_cons, ih, length_setCell]

theorem foldl_setCell_rowLen (val : Nat → Nat → Bool) (ps : List (Nat × Nat)) (acc : Grid)
    (i : Nat) :
    ((ps.foldl (fun a p => setCell a p.1 p.2 (val p.1 p.2)) acc).getD i []).length
      = ((acc.getD i []).length) := by
  induction ps generalizing acc with
  | nil => rfl
  | cons p rest ih => rw [List.foldl_cons, ih, rowLen_setCell]

theorem foldl_setCell_getCell (val : Nat → Nat → Bool) (ps : List (Nat × Nat)) (acc : Grid)
    {r c : Nat} (hr : r < acc.length) (hc : c < (acc.getD r []).length) :
    getCell (ps.foldl (fun a p => setCell a p.1 p.2 (val p.1 p.2)) acc) r c
      = if (r, c) ∈ ps then val r c else getCell acc r c := by
  induction ps generalizing acc with
  | nil => simp
  | cons p rest ih =>
    rw [List.foldl_cons]
    have hr2 : r < (setCell acc p.1 p.2 (val p.1 p.2)).length := by
      rw [length_setCell]; exact hr
    have hc2 : c < ((setCell acc p.1 p.2 (val p.1 p.2)).getD r []).length := by
      rw [rowLen_setCell]; exact hc
    rw [ih _ hr2 hc2]
    by_cases hmem : (r, c) ∈ rest
    · simp [hmem]
    · by_cases hp : (r, c) = p
      · have h1 : r = p.1 := by rw [← hp]
        have h2 : c = p.2 := by rw [← hp]
        subst h1; subst h2
        rw [getCell_setCell_self acc _ hr hc]
        simp [hmem]
      · have hne : ¬(r = p.1 ∧ c = p.2) := by
          intro hand
          exact hp (Prod.ext hand.1 hand.2)
        rw [getCell_setCell_ne acc _ hne]
        have : ¬((r, c) = p ∨ (r, c) ∈ rest) := by tauto
        simp only [List.mem_cons]
        simp [this, hmem, hp]

theorem mem_rowMajorIndices (rows cols r c : Nat) :
    (r, c) ∈ rowMajorIndices rows cols ↔ r < rows ∧ c < cols := by
  simp [rowMajorIndices, List.mem_flatMap, List.mem_map, List.mem_range]

/-! ## step agrees with the synchronous specification -/

theorem length_step (w : Bool) (s b : List Nat) (g : Grid) :
    (step w s b g).length = g.length := by
  unfold step
  rw [foldl_setCell_length, length_createEmptyGrid]

theorem rowLen_step (w : Bool) (s b : List Nat) (g : Grid) (i : Nat) :
    ((step w s b g).getD i []).length = if i < g.length then gridCols g else 0 := by
  unfold step
  rw [foldl_setCell_rowLen, rowLen_createEmptyGrid]

theorem getCell_step (w : Bool) (s b : List Nat) (g : Grid) {r c : Nat}
    (hr : r < g.length) (hc : c < gridCols g) :
    getCell (step w s b g) r c = nextCell w s b g r c := by
  unfold step
  have h1 : r < (createEmptyGrid g.length (gridCols g)).length := by
    rw [length_createEmptyGrid]; exact hr
  have h2 : c < ((createEmptyGrid g.length (gridCols g)).getD r []).length := by
    rw [rowLen_createEmptyGrid]; simp [hr]; exact hc
  rw [foldl_setCell_getCell _ _ _ h1 h2]
  simp [mem_rowMajorIndices, hr, hc]

theorem length_stepSync (w : Bool) (s b : List Nat) (g : Grid) :
    (stepSync w s b g).length = g.length := by
  simp [stepSync]

theorem getElem_stepSync (w : Bool) (s b : List Nat) (g : Grid) {r c : Nat}
    (h1 : r < (stepSync w s b g).length)
    (h2 : c < ((stepSync w s b g)[r]).length) :
    (stepSync w s b g)[r][c] = nextCell w s b g r c := by
  simp [stepSync]

theorem rowLen_stepSync (w : Bool) (s b : List Nat) (g : Grid) {r : Nat}
    (h1 : r < (stepSync w s b g).length) :
    ((stepSync w s b g)[r]).length = gridCols g := by
  simp [stepSync]

theorem step_eq_stepSync (w : Bool) (s b : List Nat) (g : Grid) :
    step w s b g = stepSync w s b g := by
  apply List.ext_getElem
  · rw [length_step, length_stepSync]
  · intro r hr1 hr2
    have hrg : r < g.length := by rwa [length_step] at hr1
    apply List.ext_getElem
    · rw [← getD_eq_of_lt _ [] hr1, rowLen_step]
      rw [rowLen_stepSync w s b g hr2]
      simp [hrg]
    · intro c hc1 hc2
      have hcg : c < gridCols g := by
        rw [← getD_eq_of_lt _ [] hr1, rowLen_step] at hc1
        simpa [hrg] using hc1
      rw [getElem_stepSync w s b g hr2 hc2]
      have hlen : c < ((step w s b g)[r]).length := by
        rw [← getD_eq_of_lt _ [] hr1, rowLen_step]
        simp [hrg]; exact hcg
      have hcell := getCell_step w s b g hrg hcg
      unfold getCell at hcell
      rw [getD_eq_of_lt _ [] hr1, getD_eq_of_lt _ false hlen] at hcell
      exact hcell

/-! ## Neighbor counts are bounded by the eight offsets -/

theorem foldl_add_le_length {α : Type} (f : Nat → α → Nat)
    (hf : ∀ s a, f s a ≤ s + 1) :
    ∀ (l : List α) (init : Nat), l.foldl f init ≤ init + l.length := by
  intro l
  induction l with
  | nil => intro init; simp
  | cons a rest ih =>
    intro init
    rw [List.foldl_cons]
    calc List.foldl f (f init a) rest ≤ f init a + rest.length := ih (f init a)
      _ ≤ init + 1 + rest.length := by have := hf init a; omega
      _ = init + (a :: rest).length := by simp; omega

theorem countNeighbors_le (w : Bool) (g : Grid) (r c : Nat) :
    countNeighbors w g r c ≤ 8 := by
  unfold countNeighbors
  have h := foldl_add_le_length
    (fun sum (d : Int × Int) =>
      let nr : Int := (r : Int) + d.1
      let nc : Int := (c : Int) + d.2
      if w then
        sum + cellNat g ((nr + (g.length : Int)) % (g.length : Int)).toNat
          ((nc + (gridCols g : Int)) % (gridCols g : Int)).toNat
      else if nr < 0 ∨ nr ≥ (g.length : Int) ∨ nc < 0 ∨ nc ≥ (gridCols g : Int) then sum
      else sum + cellNat g nr.toNat nc.toNat)
    (by
      intro s d
      simp only
      have h1 : ∀ i j : Nat, cellNat g i j ≤ 1 := by
        intro i j; unfold cellNat; split <;> omega
      split
      · have := h1 (((r : Int) + d.1 + (g.length : Int)) % (g.length : Int)).toNat
          (((c : Int) + d.2 + (gridCols g : Int)) % (gridCols g : Int)).toNat
        omega
      · split
        · omega
        · have := h1 ((r : Int) + d.1).toNat ((c : Int) + d.2).toNat
          omega)
    neighborDeltas 0
  simpa [neighborDeltas] using h

/-! ## Dimensions of step in the app's accessors -/

theorem gridRows_step (w : Bool) (s b : List Nat) (g : Grid) :
    gridRows (step w s b g) = gridRows g := by
  unfold gridRows; rw [length_step]

theorem gridCols_step (w : Bool) (s b : List Nat) (g : Grid) :
    gridCols (step w s b g) = gridCols g := by
  unfold gridCols
  rw [headD_eq_getD_zero, headD_eq_getD_zero]
  cases g with
  | nil => simp [step, rowMajorIndices, createEmptyGrid, gridCols]
  | cons row rest =>
    have h := rowLen_step w s b (row :: rest) 0
    simp only [List.length_cons] at h
    rw [h]
    simp only [gridCols]
    rw [headD_eq_getD_zero]
    simp

/-! ## Resize -/

theorem getD_mem {α : Type} (l : List α) (d : α) {n : Nat} (h : n < l.length) :
    l.getD n d ∈ l := by
  rw [getD_eq_of_lt _ _ h]
  exact List.getElem_mem h

theorem rowLen_of_wf {g : Grid} (hg : WellFormed g) {r : Nat} (hr : r < g.length) :
    (g.getD r []).length = gridCols g :=
  hg.2.2 _ (getD_mem g [] hr)

theorem getD_replicate_false (n j : Nat) : (List.replicate n false).getD j false = false := by
  rw [List.getD_eq_getElem?_getD, List.getElem?_replicate]
  split <;> rfl

theorem overwriteFront_of_length_eq (n : Nat) (src : List Bool) (h : src.length = n) :
    overwriteFront (List.replicate n false) src = src := by
  unfold overwriteFront
  rw [h, List.drop_replicate]
  simp

theorem length_overwriteReplicate (n : Nat) (src : List Bool) (h : src.length ≤ n) :
    (overwriteFront (List.replicate n false) src).length = n := by
  simp [overwriteFront]
  omega

theorem getD_overwriteReplicate (n : Nat) (src : List Bool) (j : Nat) :
    (overwriteFront (List.replicate n false) src).getD j false
      = if j < src.length then src.getD j false else false := by
  unfold overwriteFront
  rw [List.getD_eq_getElem?_getD, List.getElem?_append]
  by_cases hj : j < src.length
  · rw [List.getD_eq_getElem?_getD]
    simp [hj]
  · simp only [hj, if_false]
    rw [List.getElem?_drop, List.getElem?_replicate]
    split <;> rfl

theorem length_resizeRows (cols : Nat) (g : Grid) (nR : Nat) :
    (resizeRows cols g nR).length = nR := by
  simp [resizeRows]

theorem getD_resizeRows (cols : Nat) (g : Grid) (nR : Nat) {r : Nat} (hr : r < nR) :
    (resizeRows cols g nR).getD r []
      = if r < g.length then overwriteFront (List.replicate cols false) (g.getD r [])
        else List.replicate cols false := by
  unfold resizeRows
  rw [getD_eq_of_lt]
  · simp
  · simpa using hr

theorem getD_resizeRows_wf {g : Grid} (hg : WellFormed g) (nR : Nat) {r : Nat} (hr : r < nR) :
    (resizeRows (gridCols g) g nR).getD r []
      = if r < g.length then g.getD r [] else List.replicate (gridCols g) false := by
  rw [getD_resizeRows _ _ _ hr]
  by_cases h : r < g.length
  · simp only [h, if_true]
    exact overwriteFront_of_length_eq _ _ (rowLen_of_wf hg h)
  · simp [h]

theorem take_min_self {α : Type} (row : List α) (n : Nat) :
    row.take (min row.length n) = row.take n := by
  rcases Nat.le_total row.length n with h | h
  · rw [Nat.min_eq_left h, List.take_of_length_le (Nat.le_refl _), List.take_of_length_le h]
  · rw [Nat.min_eq_right h]

theorem length_resizeCols (g : Grid) (nC : Nat) : (resizeCols g nC).length = g.length := by
  simp [resizeCols]

theorem getD_resizeCols (g : Grid) (nC : Nat) {r : Nat} (hr : r < g.length) :
    (resizeCols g nC).getD r []
      = overwriteFront (List.replicate nC false) ((g.getD r []).take (min (g.getD r []).length nC)) := by
  unfold resizeCols
  rw [getD_eq_of_lt _ _ (by simpa using hr)]
  rw [List.getElem_map]
  rw [getD_eq_of_lt _ _ hr]

theorem rowLen_resizeCols (g : Grid) (nC : Nat) {r : Nat} (hr : r < g.length) :
    ((resizeCols g nC).getD r []).length = nC := by
  rw [getD_resizeCols g nC hr]
  apply length_overwriteReplicate
  simp [List.length_take]

theorem getCell_resizeCols (g : Grid) (nC : Nat) {r c : Nat} (hr : r < g.length)
    (hc : c < nC) :
    getCell (resizeCols g nC) r c
      = if c < (g.getD r []).length then getCell g r c else false := by
  unfold getCell
  rw [getD_resizeCols g nC hr, take_min_self, getD_overwriteReplicate]
  rw [List.length_take]
  by_cases h : c < (g.getD r []).length
  · have : c < min nC (g.getD r []).length := by omega
    simp only [this, if_true, h, if_true]
    rw [List.getD_eq_getElem?_getD, List.getElem?_take, List.getD_eq_getElem?_getD]
    simp [hc]
  · have hmin : ¬ c < min nC (g.getD r []).length := by omega
    simp only [hmin, if_false, h]

theorem gridRows_resize (g : Grid) (nR nC : Nat) : gridRows (resize g nR nC) = nR := by
  unfold gridRows resize
  rw [length_resizeCols, length_resizeRows]

theorem gridCols_resize (g : Grid) (nR nC : Nat) (hR : 0 < nR) :
    gridCols (resize g nR nC) = nC := by
  unfold gridCols
  rw [headD_eq_getD_zero]
  have h0 : 0 < (resizeRows (gridCols g) g nR).length := by
    rw [length_resizeRows]; exact hR
  exact rowLen_resizeCols _ nC h0

theorem getCell_resize {g : Grid} (hg : WellFormed g) (nR nC : Nat) {r c : Nat}
    (hr : r < nR) (hc : c < nC) :
    getCell (resize g nR nC) r c
      = if r < gridRows g ∧ c < gridCols g then getCell g r c else false := by
  unfold resize
  have hr2 : r < (resizeRows (gridCols g) g nR).length := by
    rw [length_resizeRows]; exact hr
  rw [getCell_resizeCols _ nC hr2 hc]
  rw [getD_resizeRows_wf hg nR hr]
  by_cases hrow : r < g.length
  · simp only [hrow, if_true]
    unfold gridRows
    rw [rowLen_of_wf hg hrow]
    by_cases hcol : c < gridCols g
    · simp only [hcol, if_true, hrow, true_and]
      unfold getCell
      rw [getD_resizeRows_wf hg nR hr]
      simp [hrow]
    · simp [hcol, hrow]
  · simp only [hrow, if_false]
    rw [List.length_replicate]
    unfold gridRows
    by_cases hcol : c < gridCols g
    · simp only [hcol, if_true]
      unfold getCell
      rw [getD_resizeRows_wf hg nR hr]
      simp [hrow, getD_replicate_false]
    · simp [hcol, hrow]

theorem wf_resize (g : Grid) {nR nC : Nat} (hR : 0 < nR) (hC : 0 < nC) :
    WellFormed (resize g nR nC) := by
  refine ⟨?_, ?_, ?_⟩
  · show 0 < (resize g nR nC).length
    have := gridRows_resize g nR nC
    unfold gridRows at this
    omega
  · rw [gridCols_resize g nR nC hR]; exact hC
  · intro row hrow
    rw [gridCols_resize g nR nC hR]
    unfold resize at hrow
    unfold resizeCols at hrow
    rw [List.mem_map] at hrow
    obtain ⟨srcRow, _, hEq⟩ := hrow
    rw [← hEq]
    apply length_overwriteReplicate
    simp [List.length_take]

/-! ## Randomize -/

theorem length_randomize (rows cols : Nat) (p : ℚ) (rand : Nat → Nat → ℚ) :
    (randomize rows cols p rand).length = rows := by
  simp [randomize]

theorem rowLen_randomize (rows cols : Nat) (p : ℚ) (rand : Nat → Nat → ℚ) :
    ∀ row ∈ randomize rows cols p rand, row.length = cols := by
  intro row hrow
  unfold randomize at hrow
  rw [List.mem_map] at hrow
  obtain ⟨r, _, hEq⟩ := hrow
  rw [← hEq]
  simp

theorem getCell_randomize (rows cols : Nat) (p : ℚ) (rand : Nat → Nat → ℚ) {r c : Nat}
    (hr : r < rows) (hc : c < cols) :
    getCell (randomize rows cols p rand) r c = decide (rand r c < p) := by
  have houter : (randomize rows cols p rand).getD r []
      = (List.range cols).map (fun c => decide (rand r c < p)) := by
    unfold randomize
    rw [getD_eq_of_lt _ _ (by simpa using hr)]
    simp
  unfold getCell
  rw [houter, getD_eq_of_lt _ _ (by simpa using hc)]
  simp

/-! ## Painting -/

theorem cloneGrid_eq (g : Grid) : cloneGrid g = g := by
  simp [cloneGrid]

/-! ## Pattern stamping -/

theorem foldlM_jsSetAlive (ar ac : Nat) (offsets : List (Nat × Nat)) :
    ∀ (acc : Grid), (∀ o ∈ offsets, ar + o.1 < acc.length) →
      offsets.foldlM (fun a o => jsSetAlive a (ar + o.1) (ac + o.2)) acc
        = some (offsets.foldl (fun a o => setCell a (ar + o.1) (ac + o.2) true) acc) := by
  induction offsets with
  | nil => intro acc _; rfl
  | cons o rest ih =>
    intro acc h
    rw [List.foldlM_cons, List.foldl_cons]
    have hrow : ar + o.1 < acc.length := h o (List.mem_cons_self o rest)
    have hjs : jsSetAlive acc (ar + o.1) (ac + o.2)
        = some (setCell acc (ar + o.1) (ac + o.2) true) := by
      unfold jsSetAlive
      simp [hrow]
    rw [hjs]
    have hrest : ∀ p ∈ rest, ar + p.1 < (setCell acc (ar + o.1) (ac + o.2) true).length := by
      intro p hp
      rw [length_setCell]
      exact h p (List.mem_cons_of_mem o hp)
    simpa using ih (setCell acc (ar + o.1) (ac + o.2) true) hrest

theorem foldl_setTrue_length (ps : List (Nat × Nat)) (acc : Grid) :
    (ps.foldl (fun a p => setCell a p.1 p.2 true) acc).length = acc.length :=
  foldl_setCell_length (fun _ _ => true) ps acc

theorem foldl_setTrue_rowLen (ps : List (Nat × Nat)) (acc : Grid) (i : Nat) :
    ((ps.foldl (fun a p => setCell a p.1 p.2 true) acc).getD i []).length
      = (acc.getD i []).length :=
  foldl_setCell_rowLen (fun _ _ => true) ps acc i

theorem foldl_setTrue_getCell (ps : List (Nat × Nat)) (acc : Grid) {r c : Nat}
    (hr : r < acc.length) (hc : c < (acc.getD r []).length) :
    getCell (ps.foldl (fun a p => setCell a p.1 p.2 true) acc) r c
      = if (r, c) ∈ ps then true else getCell acc r c :=
  foldl_setCell_getCell (fun _ _ => true) ps acc hr hc

/-! ## Claim theorems -/

/-- C1: for every well-formed grid, rule set and topology mode, `step` produces
a grid of identical dimensions in which a cell is alive in the result iff it was
alive with its live-neighbor count in the survive set, or dead with its
live-neighbor count in the birth set. -/
theorem step_next_state_rule (w : Bool) (s b : List Nat) (g : Grid)
    (hg : WellFormed g) (r c : Nat) (hr : r < gridRows g) (hc : c < gridCols g) :
    gridRows (step w s b g) = gridRows g ∧ gridCols (step w s b g) = gridCols g ∧
    (getCell (step w s b g) r c = true ↔
      ((getCell g r c = true ∧ countNeighbors w g r c ∈ s) ∨
       (getCell g r c = false ∧ countNeighbors w g r c ∈ b))) := by
  refine ⟨gridRows_step w s b g, gridCols_step w s b g, ?_⟩
  rw [getCell_step w s b g hr hc]
  unfold nextCell
  by_cases hcell : getCell g r c = true
  · simp [hcell, contains_iff_mem]
  · rw [Bool.not_eq_true] at hcell
    simp [hcell, contains_iff_mem]

/-- C1 witness. -/
theorem step_next_state_rule_witness :
    WellFormed [[true, true], [false, false]] ∧
    0 < gridRows [[true, true], [false, false]] ∧
    0 < gridCols [[true, true], [false, false]] ∧
    (gridRows (step true [2, 3] [3] [[true, true], [false, false]])
        = gridRows [[true, true], [false, false]] ∧
     gridCols (step true [2, 3] [3] [[true, true], [false, false]])
        = gridCols [[true, true], [false, false]] ∧
     (getCell (step true [2, 3] [3] [[true, true], [false, false]]) 0 0 = true ↔
       ((getCell [[true, true], [false, false]] 0 0 = true ∧
          countNeighbors true [[true, true], [false, false]] 0 0 ∈ [2, 3]) ∨
        (getCell [[true, true], [false, false]] 0 0 = false ∧
          countNeighbors true [[true, true], [false, false]] 0 0 ∈ [3])))) :=
  ⟨by decide, by decide, by decide,
    step_next_state_rule true [2, 3] [3] [[true, true], [false, false]]
      (by decide) 0 0 (by decide) (by decide)⟩

/-- C2: the sequential write loop of `step` equals the synchronous per-cell
function of the input snapshot — no output cell can observe another cell's
updated value — and the result is a grid of the same dimensions while the input
value is untouched; hence a paint between two calls is seen exactly by the next
call. -/
theorem step_snapshot_pure (w : Bool) (s b : List Nat) (g : Grid) :
    step w s b g = stepSync w s b g ∧
    gridRows (step w s b g) = gridRows g ∧
    gridCols (step w s b g) = gridCols g ∧
    ∀ i, i < gridRows g → ((step w s b g).getD i []).length = gridCols g := by
  refine ⟨step_eq_stepSync w s b g, gridRows_step w s b g, gridCols_step w s b g, ?_⟩
  intro i hi
  rw [rowLen_step]
  simp only [gridRows] at hi
  simp [hi]

/-- C3: for every well-formed grid, in-range cell, and either topology,
`countNeighbors` returns a value between 0 and 8 inclusive. -/
theorem countNeighbors_in_range (w : Bool) (g : Grid) (hg : WellFormed g)
    (r c : Nat) (hr : r < gridRows g) (hc : c < gridCols g) :
    0 ≤ countNeighbors w g r c ∧ countNeighbors w g r c ≤ 8 :=
  ⟨Nat.zero_le _, countNeighbors_le w g r c⟩

/-- C3 witness. -/
theorem countNeighbors_in_range_witness :
    WellFormed [[true, true, false], [false, true, false], [true, false, true]] ∧
    0 < gridRows [[true, true, false], [false, true, false], [true, false, true]] ∧
    0 < gridCols [[true, true, false], [false, true, false], [true, false, true]] ∧
    (0 ≤ countNeighbors true [[true, true, false], [false, true, false], [true, false, true]] 0 0 ∧
     countNeighbors true [[true, true, false], [false, true, false], [true, false, true]] 0 0 ≤ 8) :=
  ⟨by decide, by decide, by decide,
    countNeighbors_in_range true _ (by decide) 0 0 (by decide) (by decide)⟩

/-- C4: under wrap topology on a 3×3 grid whose only live cell is `(0,0)`,
the neighbor count is 1 at each of `(2,2)`, `(2,0)`, `(0,2)`, `(1,0)`, `(0,1)`
and `(1,1)`, matching toroidal adjacency of the modulo-reduced coordinates. -/
theorem wrap_toroidal_adjacency :
    countNeighbors true [[true, false, false], [false, false, false], [false, false, false]] 2 2 = 1 ∧
    countNeighbors true [[true, false, false], [false, false, false], [false, false, false]] 2 0 = 1 ∧
    countNeighbors true [[true, false, false], [false, false, false], [false, false, false]] 0 2 = 1 ∧
    countNeighbors true [[true, false, false], [false, false, false], [false, false, false]] 1 0 = 1 ∧
    countNeighbors true [[true, false, false], [false, false, false], [false, false, false]] 0 1 = 1 ∧
    countNeighbors true [[true, false, false], [false, false, false], [false, false, false]] 1 1 = 1 := by
  decide

/-- C5: resizing yields the target dimensions, keeps the overlapping top-left
rectangle of the old content, clears the rest, and shrinking then restoring the
original dimensions never resurrects cells outside the shrunk region. -/
theorem resize_keeps_topleft (g : Grid) (hg : WellFormed g) (nR nC : Nat)
    (hR : 0 < nR) (hC : 0 < nC) :
    (gridRows (resize g nR nC) = nR ∧ gridCols (resize g nR nC) = nC) ∧
    (∀ r c, r < nR → c < nC →
       getCell (resize g nR nC) r c
         = if r < gridRows g ∧ c < gridCols g then getCell g r c else false) ∧
    (∀ r c, r < gridRows g → c < gridCols g → (nR ≤ r ∨ nC ≤ c) →
       getCell (resize (resize g nR nC) (gridRows g) (gridCols g)) r c = false) := by
  refine ⟨⟨gridRows_resize g nR nC, gridCols_resize g nR nC hR⟩, ?_, ?_⟩
  · intro r c hr hc
    exact getCell_resize hg nR nC hr hc
  · intro r c hr hc hout
    have hg2 : WellFormed (resize g nR nC) := wf_resize g hR hC
    rw [getCell_resize hg2 (gridRows g) (gridCols g) hr hc]
    rw [gridRows_resize, gridCols_resize g nR nC hR]
    have hcond : ¬(r < nR ∧ c < nC) := by omega
    simp [hcond]

/-- C5 witness. -/
theorem resize_keeps_topleft_witness :
    WellFormed [[true, true], [true, true]] ∧ 0 < 1 ∧ 0 < 1 ∧
    ((gridRows (resize [[true, true], [true, true]] 1 1) = 1 ∧
      gridCols (resize [[true, true], [true, true]] 1 1) = 1) ∧
     (∀ r c, r < 1 → c < 1 →
        getCell (resize [[true, true], [true, true]] 1 1) r c
          = if r < gridRows [[true, true], [true, true]] ∧
               c < gridCols [[true, true], [true, true]]
            then getCell [[true, true], [true, true]] r c else false) ∧
     (∀ r c, r < gridRows [[true, true], [true, true]] →
        c < gridCols [[true, true], [true, true]] → (1 ≤ r ∨ 1 ≤ c) →
        getCell (resize (resize [[true, true], [true, true]] 1 1)
            (gridRows [[true, true], [true, true]])
            (gridCols [[true, true], [true, true]])) r c = false)) :=
  ⟨by decide, by decide, by decide,
    resize_keeps_topleft [[true, true], [true, true]] (by decide) 1 1
      (by decide) (by decide)⟩

set_option maxRecDepth 100000 in
/-- C6: stamping the Blinker at the center of a 20×30 grid and stepping twice
under wrap topology with the default rules (survive `{2,3}`, birth `{3}`)
returns exactly the freshly stamped grid. -/
theorem blinker_period_two :
    (applyPattern 20 30 "Blinker").map
        (fun g => step true [2, 3] [3] (step true [2, 3] [3] g))
      = applyPattern 20 30 "Blinker" ∧
    (applyPattern 20 30 "Blinker").isSome = true := by
  decide

/-- C7: randomize at density 0 gives an all-dead grid and at density 1 an
all-alive grid of the requested dimensions, whichever values the uniform
random source in [0,1) supplies. -/
theorem randomize_extreme_densities (rows cols : Nat) (rand : Nat → Nat → ℚ)
    (hrand : ∀ r c, 0 ≤ rand r c ∧ rand r c < 1) :
    ((randomize rows cols 0 rand).length = rows ∧
     (∀ row ∈ randomize rows cols 0 rand, row.length = cols) ∧
     (∀ r c, r < rows → c < cols → getCell (randomize rows cols 0 rand) r c = false)) ∧
    ((randomize rows cols 1 rand).length = rows ∧
     (∀ row ∈ randomize rows cols 1 rand, row.length = cols) ∧
     (∀ r c, r < rows → c < cols → getCell (randomize rows cols 1 rand) r c = true)) := by
  refine ⟨⟨length_randomize rows cols 0 rand, rowLen_randomize rows cols 0 rand, ?_⟩,
          ⟨length_randomize rows cols 1 rand, rowLen_randomize rows cols 1 rand, ?_⟩⟩
  · intro r c hr hc
    rw [getCell_randomize rows cols 0 rand hr hc]
    have h0 := (hrand r c).1
    simp only [decide_eq_false_iff_not]
    exact not_lt.mpr h0
  · intro r c hr hc
    rw [getCell_randomize rows cols 1 rand hr hc]
    have h1 := (hrand r c).2
    simp [h1]

/-- C7 witness. -/
theorem randomize_extreme_densities_witness :
    (∀ r c : Nat, 0 ≤ (fun _ _ : Nat => (1 : ℚ) / 2) r c ∧
       (fun _ _ : Nat => (1 : ℚ) / 2) r c < 1) ∧
    (((randomize 2 3 0 (fun _ _ => (1 : ℚ) / 2)).length = 2 ∧
      (∀ row ∈ randomize 2 3 0 (fun _ _ => (1 : ℚ) / 2), row.length = 3) ∧
      (∀ r c, r < 2 → c < 3 →
        getCell (randomize 2 3 0 (fun _ _ => (1 : ℚ) / 2)) r c = false)) ∧
     ((randomize 2 3 1 (fun _ _ => (1 : ℚ) / 2)).length = 2 ∧
      (∀ row ∈ randomize 2 3 1 (fun _ _ => (1 : ℚ) / 2), row.length = 3) ∧
      (∀ r c, r < 2 → c < 3 →
        getCell (randomize 2 3 1 (fun _ _ => (1 : ℚ) / 2)) r c = true))) :=
  ⟨fun _ _ => by norm_num,
    randomize_extreme_densities 2 3 (fun _ _ => (1 : ℚ) / 2)
      (fun _ _ => by norm_num)⟩

/-- C8 counterexample: an offset whose target row is out of bounds is not
silently dropped — the stamp aborts with an error (`none`) instead of
returning the grid with that offset ignored. -/
theorem stamp_oob_row_faults :
    stampPattern 3 3 [(3, 0)] 0 0 = none ∧
    stampPattern 3 3 [(3, 0)] 0 0 ≠ some (createEmptyGrid 3 3) := by
  decide

/-- C8 amended: when every offset's target row is in range, the stamp succeeds
and sets exactly the named in-bounds targets alive on an otherwise all-dead
grid of the current dimensions — an offset whose target column is out of range
is silently dropped — but an offset whose target row is out of range makes the
stamp fail (the row access yields `undefined` and the write throws). -/
theorem stampPattern_amended (rows cols : Nat) (offsets : List (Nat × Nat)) (ar ac : Nat)
    (h : ∀ o ∈ offsets, ar + o.1 < rows) :
    ∃ g', stampPattern rows cols offsets ar ac = some g' ∧
      gridRows g' = rows ∧
      (∀ i, i < rows → (g'.getD i []).length = cols) ∧
      (∀ r c, r < rows → c < cols →
        (getCell g' r c = true ↔ (r, c) ∈ offsets.map (fun o => (ar + o.1, ac + o.2)))) := by
  have hlen : ∀ o ∈ offsets, ar + o.1 < (createEmptyGrid rows cols).length := by
    intro o ho
    rw [length_createEmptyGrid]
    exact h o ho
  have hmap : (offsets.map (fun o => (ar + o.1, ac + o.2))).foldl
        (fun a p => setCell a p.1 p.2 true) (createEmptyGrid rows cols)
      = offsets.foldl (fun a o => setCell a (ar + o.1) (ac + o.2) true)
          (createEmptyGrid rows cols) := by
    rw [List.foldl_map]
  refine ⟨offsets.foldl (fun a o => setCell a (ar + o.1) (ac + o.2) true)
      (createEmptyGrid rows cols), ?_, ?_, ?_, ?_⟩
  · unfold stampPattern
    exact foldlM_jsSetAlive ar ac offsets _ hlen
  · show (offsets.foldl (fun a o => setCell a (ar + o.1) (ac + o.2) true)
        (createEmptyGrid rows cols)).length = rows
    rw [← hmap, foldl_setTrue_length, length_createEmptyGrid]
  · intro i hi
    rw [← hmap, foldl_setTrue_rowLen, rowLen_createEmptyGrid]
    simp [hi]
  · intro r c hr hc
    have h1 : r < (createEmptyGrid rows cols).length := by
      rw [length_createEmptyGrid]; exact hr
    have h2 : c < ((createEmptyGrid rows cols).getD r []).length := by
      rw [rowLen_createEmptyGrid]
      simp [hr]; exact hc
    rw [← hmap, foldl_setTrue_getCell _ _ h1 h2, getCell_createEmptyGrid]
    by_cases hmem : (r, c) ∈ offsets.map (fun o => (ar + o.1, ac + o.2))
    · simp [hmem]
    · simp [hmem]

/-- C8 witness for the amended statement. -/
theorem stampPattern_amended_witness :
    (∀ o ∈ [((0 : Nat), (1 : Nat)), (1, 5)], 0 + o.1 < 3) ∧
    (∃ g', stampPattern 3 3 [(0, 1), (1, 5)] 0 0 = some g' ∧
      gridRows g' = 3 ∧
      (∀ i, i < 3 → (g'.getD i []).length = 3) ∧
      (∀ r c, r < 3 → c < 3 →
        (getCell g' r c = true ↔
          (r, c) ∈ [((0 : Nat), (1 : Nat)), (1, 5)].map (fun o => (0 + o.1, 0 + o.2))))) :=
  ⟨by decide, stampPattern_amended 3 3 [(0, 1), (1, 5)] 0 0 (by decide)⟩

/-- C9: painting at an out-of-range coordinate leaves the grid unchanged and
surfaces no error; painting in range overwrites exactly the addressed cell and
leaves every other cell unchanged. -/
theorem paintCell_spec (rows cols : Nat) (g : Grid) (hg : WellFormed g)
    (hrows : gridRows g = rows) (hcols : gridCols g = cols) (y x : Int) (v : Bool) :
    (¬(0 ≤ y ∧ y < (rows : Int) ∧ 0 ≤ x ∧ x < (cols : Int)) →
       paintCell rows cols g y x v = g) ∧
    ((0 ≤ y ∧ y < (rows : Int) ∧ 0 ≤ x ∧ x < (cols : Int)) →
       getCell (paintCell rows cols g y x v) y.toNat x.toNat = v ∧
       ∀ r c : Nat, ¬(r = y.toNat ∧ c = x.toNat) →
         getCell (paintCell rows cols g y x v) r c = getCell g r c) := by
  constructor
  · intro hout
    simp [paintCell, cloneGrid_eq, hout]
  · intro hin
    have hy : y.toNat < g.length := by
      have : y < (rows : Int) := hin.2.1
      have hrn : y.toNat < rows := by
        rw [Int.toNat_lt hin.1]
        exact this
      unfold gridRows at hrows
      omega
    have hx : x.toNat < (g.getD y.toNat []).length := by
      rw [rowLen_of_wf hg hy, hcols]
      rw [Int.toNat_lt hin.2.2.1]
      exact hin.2.2.2
    constructor
    · simp only [paintCell, cloneGrid_eq, hin, if_true]
      exact getCell_setCell_self g v hy hx
    · intro r c hne
      simp only [paintCell, cloneGrid_eq, hin, if_true]
      exact getCell_setCell_ne g v hne

/-- C9 witness. -/
theorem paintCell_spec_witness :
    WellFormed [[true, false], [false, true]] ∧
    gridRows [[true, false], [false, true]] = 2 ∧
    gridCols [[true, false], [false, true]] = 2 ∧
    ((¬((0 : Int) ≤ 1 ∧ (1 : Int) < (2 : Nat) ∧ (0 : Int) ≤ 0 ∧ (0 : Int) < (2 : Nat)) →
        paintCell 2 2 [[true, false], [false, true]] 1 0 true
          = [[true, false], [false, true]]) ∧
     (((0 : Int) ≤ 1 ∧ (1 : Int) < (2 : Nat) ∧ (0 : Int) ≤ 0 ∧ (0 : Int) < (2 : Nat)) →
        getCell (paintCell 2 2 [[true, false], [false, true]] 1 0 true)
          (Int.toNat 1) (Int.toNat 0) = true ∧
        ∀ r c : Nat, ¬(r = Int.toNat 1 ∧ c = Int.toNat 0) →
          getCell (paintCell 2 2 [[true, false], [false, true]] 1 0 true) r c
            = getCell [[true, false], [false, true]] r c)) :=
  ⟨by decide, by decide, by decide,
    paintCell_spec 2 2 [[true, false], [false, true]]
      (by decide) (by decide) (by decide) 1 0 true⟩

/-- C10: the result of `step` depends only on membership in the survive and
birth collections — lists with the same underlying sets of values (any order,
any duplicates) produce the same next grid. -/
theorem step_rule_set_semantics (w : Bool) (s s2 b b2 : List Nat) (g : Grid)
    (hs : ∀ n, n ∈ s ↔ n ∈ s2) (hb : ∀ n, n ∈ b ↔ n ∈ b2) :
    step w s b g = step w s2 b2 g := by
  rw [step_eq_stepSync, step_eq_stepSync]
  unfold stepSync
  have hnext : ∀ r c : Nat, nextCell w s b g r c = nextCell w s2 b2 g r c := by
    intro r c
    unfold nextCell
    have hcs : s.contains (countNeighbors w g r c)
        = s2.contains (countNeighbors w g r c) := by
      rw [Bool.eq_iff_iff, contains_iff_mem, contains_iff_mem]
      exact hs _
    have hcb : b.contains (countNeighbors w g r c)
        = b2.contains (countNeighbors w g r c) := by
      rw [Bool.eq_iff_iff, contains_iff_mem, contains_iff_mem]
      exact hb _
    simp only [hcs, hcb]
  simp only [hnext]

/-- C10 witness. -/
theorem step_rule_set_semantics_witness :
    (∀ n : Nat, n ∈ [2, 3] ↔ n ∈ [3, 2, 2]) ∧
    (∀ n : Nat, n ∈ [3] ↔ n ∈ [3, 3]) ∧
    step false [2, 3] [3] [[true, true], [true, false]]
      = step false [3, 2, 2] [3, 3] [[true, true], [true, false]] := by
  refine ⟨?_, ?_, ?_⟩
  · intro n
    simp only [List.mem_cons, List.not_mem_nil, or_false]
    tauto
  · intro n
    simp only [List.mem_cons, List.not_mem_nil, or_false]
    tauto
  · apply step_rule_set_semantics
    · intro n
      simp only [List.mem_cons, List.not_mem_nil, or_false]
      tauto
    · intro n
      simp only [List.mem_cons, List.not_mem_nil, or_false]
      tauto
